import Mathlib

/-!
Verification of the Portfolio_System core against its specification.

The definitions below are shallow embeddings of the Python source under
`backend/app/core` and `backend/app/routers/portfolio.py`:

* `standardize_cnpj` embeds `data_loader.standardize_cnpj`;
* the `DFrame` model and `get_fund_returns` embed the pandas pipeline of
  `data_loader.get_fund_returns` (tables as ordered named columns over rows,
  in-place column creation made explicit by returning the post-call table);
* `calculate_fund_flow_metrics` embeds `data_loader.calculate_fund_flow_metrics`;
* `PM.npPercentile`, `PM.var`, `PM.cvar`, `PM.annualized_return`,
  `PM.sortino_ratio` embed the corresponding `PortfolioMetrics` static methods
  (floats are modelled as exact rationals, and as reals where `sqrt` and a real
  exponent occur; `float(inf)` is modelled by the top element of `EReal`);
* `calculate_portfolio_returns` and `get_returns_for_frequency` embed the free
  functions of `portfolio_metrics.py`;
* `optimize_portfolio` embeds the post-solve pipeline of the `/optimize`
  endpoint, with the external SciPy solver outcome passed in as data.

Dates are modelled as natural-number day ordinals. Calendar-month offsets
(`pd.DateOffset(months=m)`) are modelled as `30 * m` days; no claim below
depends on calendar arithmetic.
-/

namespace PortfolioSystem

/-! ## Identifier normalizer: `data_loader.standardize_cnpj` -/

/-- The three length cases of `standardize_cnpj` on the digit-only cleaned
characters: keep, left-pad with zeros (`str.zfill(14)`, whose sign-handling
branch is never reached on digit-only strings), or truncate to 14. -/
def standardize_digits (cleaned : List Char) : List Char :=
  if cleaned.length = 14 then cleaned
  else if cleaned.length < 14 then
    List.replicate (14 - cleaned.length) '0' ++ cleaned
  else cleaned.take 14

/-- Embeds the digit-filtering, zero-padding and truncation of
`standardize_cnpj` on an actual string input. -/
def standardize_cnpj_str (cnpj : String) : String :=
  String.mk (standardize_digits (cnpj.toList.filter Char.isDigit))

/-- Embeds `standardize_cnpj` including its `None` guard. -/
def standardize_cnpj : Option String → Option String
  | none => none
  | some s => some (standardize_cnpj_str s)

lemma mem_standardize_digits {l : List Char} {c : Char}
    (hl : ∀ a ∈ l, a.isDigit = true) (hc : c ∈ standardize_digits l) :
    c.isDigit = true := by
  unfold standardize_digits at hc
  split at hc
  · exact hl c hc
  · split at hc
    · rcases List.mem_append.mp hc with h | h
      · rw [List.eq_of_mem_replicate h]; rfl
      · exact hl c h
    · exact hl c (List.mem_of_mem_take hc)

lemma length_standardize_digits (l : List Char) :
    (standardize_digits l).length = 14 := by
  unfold standardize_digits
  split
  · assumption
  · split
    · simp only [List.length_append, List.length_replicate]
      omega
    · rw [List.length_take]
      omega

lemma mem_standardize_digit {s : String} {c : Char} :
    c ∈ (standardize_cnpj_str s).toList → c.isDigit = true := by
  intro hc
  exact mem_standardize_digits (fun a ha => List.of_mem_filter ha) hc

lemma length_standardize (s : String) :
    (standardize_cnpj_str s).toList.length = 14 :=
  length_standardize_digits _

lemma filter_digits_standardize (s : String) :
    (standardize_cnpj_str s).toList.filter Char.isDigit
      = (standardize_cnpj_str s).toList :=
  List.filter_eq_self.mpr (fun _ hc => mem_standardize_digit hc)

lemma standardize_idem (s : String) :
    standardize_cnpj_str (standardize_cnpj_str s) = standardize_cnpj_str s := by
  conv_lhs => rw [standardize_cnpj_str]
  rw [filter_digits_standardize]
  show String.mk (standardize_digits (standardize_cnpj_str s).toList) = _
  rw [standardize_digits, length_standardize]
  simp

/-- C5: identifier normalization strips non-digits, pads and truncates to 14
digits, is idempotent on digit-bearing inputs, and satisfies the two concrete
examples from the specification. -/
theorem C5_standardize_cnpj_algebra :
    (∀ x : String, (∃ c ∈ x.toList, c.isDigit = true) →
      standardize_cnpj_str (standardize_cnpj_str x) = standardize_cnpj_str x)
    ∧ standardize_cnpj (some "123") = some "00000000000123"
    ∧ standardize_cnpj (some (String.mk (List.replicate 20 '1')))
        = some (String.mk ((String.mk (List.replicate 20 '1')).toList.take 14))
    ∧ (∀ x : String, ∀ c ∈ (standardize_cnpj_str x).toList, c.isDigit = true) := by
  refine ⟨fun x _ => standardize_idem x, by decide, by decide,
    fun x c hc => mem_standardize_digit hc⟩

/-- Witness for C5 at the concrete input "a1b2". -/
theorem C5_standardize_cnpj_algebra_witness :
    standardize_cnpj_str (standardize_cnpj_str "a1b2")
      = standardize_cnpj_str "a1b2" :=
  C5_standardize_cnpj_algebra.1 "a1b2" ⟨'1', by decide⟩

/-- C10: on every non-null input the normalizer returns exactly 14 characters,
and an input with no digits at all yields fourteen zeros, not null. -/
theorem C10_standardize_cnpj_total_length :
    ∀ s : String,
      standardize_cnpj (some s) = some (standardize_cnpj_str s)
      ∧ (standardize_cnpj_str s).length = 14
      ∧ ((∀ c ∈ s.toList, c.isDigit = false) →
          standardize_cnpj_str s = String.mk (List.replicate 14 '0')) := by
  intro s
  refine ⟨rfl, ?_, ?_⟩
  · show (standardize_cnpj_str s).toList.length = 14
    exact length_standardize s
  · intro hnd
    have hclean : s.toList.filter Char.isDigit = [] := by
      refine List.filter_eq_nil_iff.mpr (fun c hc => ?_)
      rw [hnd c hc]; decide
    unfold standardize_cnpj_str standardize_digits
    rw [hclean]
    simp

/-- Witness for C10 at the digit-free input "abc". -/
theorem C10_standardize_cnpj_total_length_witness :
    standardize_cnpj_str "abc" = String.mk (List.replicate 14 '0') :=
  (C10_standardize_cnpj_total_length "abc").2.2 (by decide)

/-! ## Tabular model for the pandas frames consumed by `data_loader` -/

/-- A table cell: a string, an exact numeric value, a date (day ordinal), or a
missing value (`None`/`NaN`). -/
inductive Cell where
  | str : String → Cell
  | num : ℚ → Cell
  | dt : ℕ → Cell
  | null : Cell
deriving DecidableEq, Repr

/-- A DataFrame: ordered column names, an index column, value rows aligned
with `colNames`, and whether the index is already a `DatetimeIndex`. -/
structure DFrame where
  colNames : List String
  index : List Cell
  rows : List (List Cell)
  indexIsDate : Bool
deriving DecidableEq, Repr

def DFrame.hasCol (df : DFrame) (n : String) : Bool :=
  df.colNames.contains n

def DFrame.colIdx (df : DFrame) (n : String) : Option ℕ :=
  df.colNames.findIdx? (· == n)

def DFrame.getCol (df : DFrame) (n : String) : List Cell :=
  match df.colIdx n with
  | some i => df.rows.map (fun r => r.getD i Cell.null)
  | none => []

/-- `df[n] = vals` for a column `n` not yet present: pandas appends it. -/
def DFrame.addCol (df : DFrame) (n : String) (vals : List Cell) : DFrame :=
  { df with colNames := df.colNames ++ [n],
            rows := List.zipWith (fun r v => r ++ [v]) df.rows vals }

def applyMask {α : Type} (l : List α) (mask : List Bool) : List α :=
  ((l.zip mask).filter (fun p => p.2)).map (fun p => p.1)

/-- Boolean-mask row selection `df[df[n] == v]`. -/
def DFrame.filterByCol (df : DFrame) (n : String) (v : Cell) : DFrame :=
  match df.colIdx n with
  | some i =>
      let mask := df.rows.map (fun r => r.getD i Cell.null == v)
      { df with index := applyMask df.index mask, rows := applyMask df.rows mask }
  | none => df

/-- `pd.to_datetime` on one cell, with day ordinals standing for dates.
Unparseable strings, which would raise in pandas, fall back to day 0; no
claim exercises that path. -/
def dateOfCell : Cell → ℕ
  | .dt d => d
  | .num q => q.floor.toNat
  | .str s => (s.toNat?).getD 0
  | .null => 0

/-- Numeric view of a cell; non-numeric cells read as 0 (not exercised by any
claim). -/
def qOfCell : Cell → ℚ
  | .num q => q
  | .dt d => (d : ℚ)
  | _ => 0

/-- `df.set_index(df.columns[0])` followed by `pd.to_datetime` on the index:
the first column becomes the (date) index and leaves the columns. -/
def DFrame.setIndexFirstColAsDate (df : DFrame) : DFrame :=
  match df.colNames with
  | [] => df
  | c :: cs =>
      { colNames := cs,
        index := (df.getCol c).map (fun v => Cell.dt (dateOfCell v)),
        rows := df.rows.map (fun r => r.drop 1),
        indexIsDate := true }

/-- `df.sort_index()`: stable sort of the (index, row) pairs by index date. -/
def DFrame.sortByDateIndex (df : DFrame) : DFrame :=
  let pairs := df.index.zip df.rows
  let sorted := List.insertionSort (fun a b => dateOfCell a.1 ≤ dateOfCell b.1) pairs
  { df with index := sorted.map (fun p => p.1), rows := sorted.map (fun p => p.2) }

/-! ## Returns extractor: `data_loader.get_fund_returns` -/

/-- `.dropna()` on a value series paired with its dates: numeric cells
survive, null cells are dropped. -/
def dropnaPairs (l : List (ℕ × Cell)) : List (ℕ × ℚ) :=
  l.filterMap (fun p =>
    match p.2 with
    | Cell.num q => some (p.1, q)
    | _ => none)

/-- `.pct_change().dropna()` on a quota series: each position after the first
yields quota over previous quota minus 1; the first position and positions
touching a non-numeric cell are dropped. -/
def pctChangePairs : List (ℕ × Cell) → List (ℕ × ℚ)
  | [] => []
  | _ :: [] => []
  | a :: b :: rest =>
      (match a.2, b.2 with
       | Cell.num x, Cell.num y => [(b.1, y / x - 1)]
       | _, _ => []) ++ pctChangePairs (b :: rest)

/-- `series[~series.index.duplicated(keep=first)]`. -/
def dedupKeepFirst : List (ℕ × ℚ) → List ℕ → List (ℕ × ℚ)
  | [], _ => []
  | p :: ps, seen =>
      if p.1 ∈ seen then dedupKeepFirst ps seen
      else p :: dedupKeepFirst ps (p.1 :: seen)

/-- Priority list of precomputed daily-return column names. -/
def returnColCandidates : List String :=
  [ "DAILY_RETURN", "RENTABILIDADE", "RETURN", "RET"]

/-- Priority list of quota/NAV column names. -/
def quotaColCandidates : List String :=
  [ "VL_QUOTA", "QUOTA", "NAV"]

/-- `standardize_cnpj` applied elementwise by `.apply`; `str(cnpj)` on
non-string cells is modelled by `toString`. -/
def standardizeCell : Cell → Cell
  | Cell.null => Cell.null
  | Cell.str s => Cell.str (standardize_cnpj_str s)
  | Cell.num q => Cell.str (standardize_cnpj_str (toString q))
  | Cell.dt d => Cell.str (standardize_cnpj_str (toString d))

/-- Duplicate-date removal, emptiness check and the optional trailing-months
window at the end of `get_fund_returns`; months are modelled as 30 days. -/
def finishSeries (s : List (ℕ × ℚ)) (period_months : Option ℕ) :
    Option (List (ℕ × ℚ) × List (ℕ × ℚ)) :=
  let returns := dedupKeepFirst s []
  if returns.length = 0 then none
  else
    match period_months with
    | some m =>
        let cutoff := ((returns.getLast?).map Prod.fst).getD 0 - 30 * m
        some (returns.filter (fun p => decide (cutoff ≤ p.1)), returns)
    | none => some (returns, returns)

/-- The body of `get_fund_returns` from the CNPJ row filter onwards, applied
to the (possibly just mutated) table. -/
def get_fund_returns_core (df2 : DFrame) (cnpj : String)
    (period_months : Option ℕ) : Option (List (ℕ × ℚ) × List (ℕ × ℚ)) :=
  let fund_data := df2.filterByCol "CNPJ_STANDARD" (Cell.str cnpj)
  if fund_data.rows.length = 0 then none
  else
    match returnColCandidates.find? (fun c => fund_data.hasCol c) with
    | some rcol =>
        let fd := if fund_data.indexIsDate then fund_data
                  else fund_data.setIndexFirstColAsDate
        let fds := fd.sortByDateIndex
        finishSeries (dropnaPairs ((fds.index.map dateOfCell).zip (fds.getCol rcol)))
          period_months
    | none =>
        match quotaColCandidates.find? (fun c => fund_data.hasCol c) with
        | none => none
        | some qcol =>
            let fd := if fund_data.indexIsDate then fund_data
                      else fund_data.setIndexFirstColAsDate
            let fds := fd.sortByDateIndex
            finishSeries
              (pctChangePairs ((fds.index.map dateOfCell).zip (fds.getCol qcol)))
              period_months

/-- Embeds `data_loader.get_fund_returns`. The second component is the state
of the caller-supplied table after the call: when `CNPJ_STANDARD` is missing
but `CNPJ` exists, the code creates the standardized column in place on the
caller's frame. -/
def get_fund_returns (fund_details : Option DFrame) (cnpj_standard : Option String)
    (period_months : Option ℕ) :
    Option (List (ℕ × ℚ) × List (ℕ × ℚ)) × Option DFrame :=
  match fund_details, cnpj_standard with
  | none, _ => (none, none)
  | some df, none => (none, some df)
  | some df, some cnpj =>
      if df.hasCol "CNPJ_STANDARD" then
        (get_fund_returns_core df cnpj period_months, some df)
      else if df.hasCol "CNPJ" then
        let df2 := df.addCol "CNPJ_STANDARD" ((df.getCol "CNPJ").map standardizeCell)
        (get_fund_returns_core df2 cnpj period_months, some df2)
      else (none, some df)

lemma filterByCol_colNames (df : DFrame) (n : String) (v : Cell) :
    (df.filterByCol n v).colNames = df.colNames := by
  unfold DFrame.filterByCol
  split <;> rfl

lemma hasCol_filterByCol (df : DFrame) (n : String) (v : Cell) (c : String) :
    (df.filterByCol n v).hasCol c = df.hasCol c := by
  unfold DFrame.hasCol
  rw [filterByCol_colNames]

lemma hasCol_addCol (df : DFrame) (n : String) (vals : List Cell) (c : String) :
    (df.addCol n vals).hasCol c = (df.hasCol c || c == n) := by
  by_cases h : c = n
  · subst h
    simp [DFrame.hasCol, DFrame.addCol, List.contains, List.elem_eq_mem]
  · simp [DFrame.hasCol, DFrame.addCol, List.contains, List.elem_eq_mem, h]

/-- If no return or quota column resolves on the table, the extractor body
yields `None`. -/
lemma get_fund_returns_core_none (df2 : DFrame) (cnpj : String) (pm : Option ℕ)
    (hr : ∀ c ∈ returnColCandidates, df2.hasCol c = false)
    (hq : ∀ c ∈ quotaColCandidates, df2.hasCol c = false) :
    get_fund_returns_core df2 cnpj pm = none := by
  unfold get_fund_returns_core
  have hfr : returnColCandidates.find?
      (fun c => (df2.filterByCol "CNPJ_STANDARD" (Cell.str cnpj)).hasCol c) = none := by
    refine List.find?_eq_none.mpr (fun c hc => ?_)
    rw [hasCol_filterByCol, hr c hc]
    simp
  have hfq : quotaColCandidates.find?
      (fun c => (df2.filterByCol "CNPJ_STANDARD" (Cell.str cnpj)).hasCol c) = none := by
    refine List.find?_eq_none.mpr (fun c hc => ?_)
    rw [hasCol_filterByCol, hq c hc]
    simp
  simp only [hfr, hfq]
  split <;> rfl

/-- C8 (claim as stated, confirmed): when neither a return column nor a
quota/NAV column resolves, the extractor returns null rather than raising;
the embedding is a total function into `Option` and yields `none`. -/
theorem C8_extract_missing_columns (df : DFrame) (cnpj : Option String)
    (pm : Option ℕ)
    (hr : ∀ c ∈ returnColCandidates, df.hasCol c = false)
    (hq : ∀ c ∈ quotaColCandidates, df.hasCol c = false) :
    (get_fund_returns (some df) cnpj pm).1 = none := by
  cases cnpj with
  | none => rfl
  | some c =>
      unfold get_fund_returns
      by_cases h1 : df.hasCol "CNPJ_STANDARD"
      · simp only [h1, if_true]
        exact get_fund_returns_core_none df c pm hr hq
      · by_cases h2 : df.hasCol "CNPJ"
        · simp only [h1, h2, Bool.false_eq_true, if_false, if_true]
          refine get_fund_returns_core_none _ c pm ?_ ?_
          · intro cc hcc
            rw [hasCol_addCol, hr cc hcc]
            have hne : (cc == "CNPJ_STANDARD") = false := by
              fin_cases hcc <;> decide
            rw [hne]
            rfl
          · intro cc hcc
            rw [hasCol_addCol, hq cc hcc]
            have hne : (cc == "CNPJ_STANDARD") = false := by
              fin_cases hcc <;> decide
            rw [hne]
            rfl
        · simp [h1, h2]

/-- Table used as C8 witness input: a CNPJ column only, so neither a return
nor a quota column resolves. -/
def c8Table : DFrame :=
  ⟨[ "CNPJ", "NR_COTST"], [Cell.dt 0], [[Cell.str "11222333000181", Cell.num 10]], true⟩

/-- Witness for C8: the extractor on `c8Table` returns null. -/
theorem C8_extract_missing_columns_witness :
    (get_fund_returns (some c8Table) (some "11222333000181") (some 12)).1 = none :=
  C8_extract_missing_columns c8Table (some "11222333000181") (some 12)
    (by decide) (by decide)

/-- Table used as C1 counterexample input: has a CNPJ column but no
CNPJ_STANDARD column. -/
def c1Table : DFrame :=
  ⟨[ "CNPJ"], [Cell.dt 0], [[Cell.str "12.345.678/0001-99"]], true⟩

/-- C1 counterexample: calling the extractor on a table that lacks
CNPJ_STANDARD but has CNPJ does not leave the caller-owned table unchanged;
the standardized column is created in place. -/
theorem C1_frame_counterexample :
    (get_fund_returns (some c1Table) (some "12345678000199") none).2
      ≠ some c1Table := by
  decide

/-- C1 (amended): the extractor leaves the caller-owned table unchanged
except in exactly one case: when the table lacks CNPJ_STANDARD and has CNPJ,
it appends a CNPJ_STANDARD column derived by standardizing the CNPJ column,
leaving the index and all existing columns unchanged. -/
theorem C1_get_fund_returns_frame (df : DFrame) (cnpj : Option String)
    (pm : Option ℕ) :
    (df.hasCol "CNPJ_STANDARD" = true ∨ df.hasCol "CNPJ" = false →
      (get_fund_returns (some df) cnpj pm).2 = some df)
    ∧ (df.hasCol "CNPJ_STANDARD" = false → df.hasCol "CNPJ" = true →
        cnpj ≠ none →
        (get_fund_returns (some df) cnpj pm).2
          = some (df.addCol "CNPJ_STANDARD"
              ((df.getCol "CNPJ").map standardizeCell))) := by
  constructor
  · intro h
    cases cnpj with
    | none => rfl
    | some c =>
        unfold get_fund_returns
        rcases h with h | h
        · simp [h]
        · by_cases h1 : df.hasCol "CNPJ_STANDARD" <;> simp [h1, h]
  · intro h1 h2 hc
    cases cnpj with
    | none => exact absurd rfl hc
    | some c =>
        unfold get_fund_returns
        simp [h1, h2]

/-- Witness for C1 (amended), exercising both conjuncts on concrete tables:
`c8Table` has CNPJ_STANDARD absent and CNPJ present, so the returned table
state is the mutated one; a table carrying CNPJ_STANDARD is left unchanged. -/
theorem C1_get_fund_returns_frame_witness :
    (get_fund_returns (some c1Table) (some "12345678000199") none).2
      = some (c1Table.addCol "CNPJ_STANDARD"
          ((c1Table.getCol "CNPJ").map standardizeCell))
    ∧ (get_fund_returns
        (some (⟨[ "CNPJ_STANDARD"], [Cell.dt 0], [[Cell.str "12345678000199"]],
          true⟩ : DFrame)) (some "12345678000199") none).2
      = some (⟨[ "CNPJ_STANDARD"], [Cell.dt 0], [[Cell.str "12345678000199"]],
          true⟩ : DFrame) :=
  ⟨(C1_get_fund_returns_frame c1Table (some "12345678000199") none).2
      (by decide) (by decide) (by simp),
   (C1_get_fund_returns_frame _ (some "12345678000199") none).1
      (Or.inl (by decide))⟩

/-! ## Metrics engine: `PortfolioMetrics` tail statistics (exact rationals) -/

namespace PM

/-- `np.percentile(xs, q)` with the default linear interpolation over the
ascending sort of the data; floats are modelled as exact rationals. -/
def npPercentile (xs : List ℚ) (q : ℚ) : ℚ :=
  let s := List.insertionSort (fun a b => a ≤ b) xs
  let pos : ℚ := q / 100 * ((xs.length : ℚ) - 1)
  let i : ℕ := (⌊pos⌋).toNat
  let lower := s.getD i 0
  let upper := s.getD (i + 1) lower
  lower + (pos - (i : ℚ)) * (upper - lower)

/-- `.mean()` of a series. -/
def listMean (xs : List ℚ) : ℚ := xs.sum / (xs.length : ℚ)

/-- `PortfolioMetrics.var`. -/
def var (returns : List ℚ) (confidence : ℚ) : ℚ :=
  if returns.length = 0 then 0
  else npPercentile returns ((1 - confidence) * 100)

/-- `PortfolioMetrics.cvar`: mean of the returns at or below the VaR value. -/
def cvar (returns : List ℚ) (confidence : ℚ) : ℚ :=
  if returns.length = 0 then 0
  else
    let var_value := var returns confidence
    listMean (returns.filter (fun r => decide (r ≤ var_value)))

lemma sorted_getD_le {s : List ℚ} (hs : List.Sorted (· ≤ ·) s) {i j : ℕ}
    (hij : i ≤ j) (hj : j < s.length) : s.getD i 0 ≤ s.getD j 0 := by
  have hi : i < s.length := lt_of_le_of_lt hij hj
  rw [List.getD_eq_get _ _ hi, List.getD_eq_get _ _ hj]
  exact hs.rel_get_of_le hij

/-- The interpolated percentile of a nonempty list is at least the smallest
element, for percentile ranks between 0 and 100. -/
lemma head_le_npPercentile (xs : List ℚ) (hn : xs.length ≠ 0) {q : ℚ}
    (hq0 : 0 ≤ q) (hq1 : q ≤ 100) :
    (List.insertionSort (fun a b => a ≤ b) xs).getD 0 0 ≤ npPercentile xs q := by
  have hn1 : 1 ≤ xs.length := Nat.one_le_iff_ne_zero.mpr hn
  set s := List.insertionSort (fun a b => a ≤ b) xs with hserr
  have hslen : s.length = xs.length := List.length_insertionSort _ _
  have hs : List.Sorted (· ≤ ·) s := List.sorted_insertionSort _ _
  set pos : ℚ := q / 100 * ((xs.length : ℚ) - 1) with hpos
  have hn1q : (0 : ℚ) ≤ (xs.length : ℚ) - 1 := by
    have : (1 : ℚ) ≤ (xs.length : ℚ) := by exact_mod_cast hn1
    linarith
  have hpos0 : 0 ≤ pos := mul_nonneg (by positivity) hn1q
  have hposle : pos ≤ (xs.length : ℚ) - 1 := by
    have hle1 : q / 100 ≤ 1 := by linarith [(div_le_one (by norm_num : (0:ℚ) < 100)).mpr hq1]
    calc pos ≤ 1 * ((xs.length : ℚ) - 1) := by
          exact mul_le_mul_of_nonneg_right hle1 hn1q
      _ = (xs.length : ℚ) - 1 := one_mul _
  set i : ℕ := (⌊pos⌋).toNat with hi
  have hfloor0 : (0 : ℤ) ≤ ⌊pos⌋ := Int.floor_nonneg.mpr hpos0
  have hicast : (i : ℚ) ≤ pos := by
    have : ((i : ℤ) : ℚ) ≤ pos := by
      rw [hi, Int.toNat_of_nonneg hfloor0]
      exact Int.floor_le pos
    exact_mod_cast this
  have hγ : 0 ≤ pos - (i : ℚ) := sub_nonneg.mpr hicast
  have hilt : i < xs.length := by
    have : (i : ℚ) < (xs.length : ℚ) := lt_of_le_of_lt (le_trans hicast hposle)
      (by linarith)
    exact_mod_cast this
  have hilt' : i < s.length := by rw [hslen]; exact hilt
  have hlow : s.getD 0 0 ≤ s.getD i 0 := sorted_getD_le hs (Nat.zero_le i) hilt'
  have hlu : s.getD i 0 ≤ s.getD (i + 1) (s.getD i 0) := by
    by_cases h1 : i + 1 < s.length
    · have e1 : s.getD (i + 1) (s.getD i 0) = s.getD (i + 1) 0 := by
        rw [List.getD_eq_getElem _ _ h1, List.getD_eq_getElem _ _ h1]
      rw [e1]
      exact sorted_getD_le hs (Nat.le_succ i) h1
    · rw [List.getD_eq_default _ _ (Nat.le_of_not_lt h1)]
  show s.getD 0 0 ≤ s.getD i 0 + (pos - (i : ℚ)) * (s.getD (i+1) (s.getD i 0) - s.getD i 0)
  have : 0 ≤ (pos - (i : ℚ)) * (s.getD (i+1) (s.getD i 0) - s.getD i 0) :=
    mul_nonneg hγ (sub_nonneg.mpr hlu)
  linarith

lemma listMean_le (l : List ℚ) (v : ℚ) (hne : l ≠ [])
    (hle : ∀ x ∈ l, x ≤ v) : listMean l ≤ v := by
  have hlen : 0 < l.length := List.length_pos.mpr hne
  have hsum : l.sum ≤ l.length • v := List.sum_le_card_nsmul l v hle
  rw [nsmul_eq_mul] at hsum
  have hlenq : (0 : ℚ) < (l.length : ℚ) := by exact_mod_cast hlen
  rw [listMean, div_le_iff hlenq, mul_comm]
  exact hsum

/-- C4: for any series with at least 20 distinct values, the CVaR at 95%
confidence never exceeds the VaR: the mean of the tail at or below the VaR
threshold is at most the threshold. -/
theorem C4_cvar_le_var (xs : List ℚ) (h20 : 20 ≤ xs.dedup.length) :
    cvar xs (95 / 100) ≤ var xs (95 / 100) := by
  have hn : xs.length ≠ 0 := by
    have := xs.dedup_sublist.length_le
    omega
  have hq : (1 - (95 : ℚ) / 100) * 100 = 5 := by norm_num
  have hvar : var xs (95 / 100) = npPercentile xs 5 := by
    rw [var, if_neg hn, hq]
  set v := var xs (95 / 100) with hv
  set s := List.insertionSort (fun a b => a ≤ b) xs with hserr
  have hmem : s.getD 0 0 ∈ xs := by
    have h0 : 0 < s.length := by
      rw [List.length_insertionSort]
      omega
    have hms : s.getD 0 0 ∈ s := by
      rw [List.getD_eq_getElem _ _ h0]
      exact List.getElem_mem h0
    rw [hserr] at hms
    exact (List.mem_insertionSort _).mp hms
  have hheadle : s.getD 0 0 ≤ v := by
    rw [hvar]
    exact head_le_npPercentile xs hn (by norm_num) (by norm_num)
  have hfilter_ne : xs.filter (fun r => decide (r ≤ v)) ≠ [] := by
    intro hempty
    have : s.getD 0 0 ∈ xs.filter (fun r => decide (r ≤ v)) :=
      List.mem_filter.mpr ⟨hmem, by simpa using hheadle⟩
    rw [hempty] at this
    exact absurd this (List.not_mem_nil _)
  have hall : ∀ x ∈ xs.filter (fun r => decide (r ≤ v)), x ≤ v := by
    intro x hx
    have := (List.mem_filter.mp hx).2
    simpa using this
  calc cvar xs (95 / 100)
      = listMean (xs.filter (fun r => decide (r ≤ v))) := by
        rw [cvar, if_neg hn]
    _ ≤ v := listMean_le _ v hfilter_ne hall

/-- Series with 20 distinct values used to witness C4. -/
def c4List : List ℚ := (List.range 20).map (fun k => (k : ℚ))

/-- Witness for C4 at a concrete series of 20 distinct returns. -/
theorem C4_cvar_le_var_witness :
    20 ≤ c4List.dedup.length ∧ cvar c4List (95 / 100) ≤ var c4List (95 / 100) :=
  ⟨by decide, C4_cvar_le_var c4List (by decide)⟩

end PM

/-! ## Frequency resampler: `get_returns_for_frequency` -/

/-- `series.rolling(window=w).apply(lambda x: (1+x).prod() - 1)`: one output
per input position, NaN until `w` observations are available. -/
def rollingApplyProd (w : ℕ) (xs : List ℚ) : List (Option ℚ) :=
  (List.range xs.length).map (fun j =>
    if w ≤ j + 1 then
      some ((((xs.drop (j + 1 - w)).take w).map (fun r => 1 + r)).prod - 1)
    else none)

/-- The rolling compounded window followed by `.dropna()`. -/
def rollingCompound (w : ℕ) (xs : List ℚ) : List ℚ :=
  (rollingApplyProd w xs).filterMap id

/-- Sample variance with the pandas default `ddof=1`; a single observation
gives the neutral value 0 (pandas would give NaN, which no claim touches). -/
def sampleVarQ (xs : List ℚ) : ℚ :=
  (xs.map (fun x => (x - PM.listMean xs) ^ 2)).sum / ((xs.length : ℚ) - 1)

/-- Result tuple of `get_returns_for_frequency`. -/
structure FreqResult where
  series : List ℚ
  mean : ℚ
  std : ℝ
  latest : ℚ

/-- Embeds `get_returns_for_frequency`: daily is the identity, weekly and
monthly compound rolling windows of 5 and 22 daily returns, and summary
statistics accompany the series. -/
noncomputable def get_returns_for_frequency (daily_returns : List ℚ)
    (frequency : String) : FreqResult :=
  let returns :=
    if frequency = "daily" then daily_returns
    else if frequency = "weekly" then rollingCompound 5 daily_returns
    else if frequency = "monthly" then rollingCompound 22 daily_returns
    else daily_returns
  if returns.length = 0 then ⟨returns, 0, 0, 0⟩
  else ⟨returns, PM.listMean returns, Real.sqrt (sampleVarQ returns),
    (returns.getLast?).getD 0⟩

lemma filterMap_window (f : ℕ → ℚ) (w : ℕ) (hw : 1 ≤ w) : ∀ n : ℕ,
    ((List.range n).map (fun j =>
        if w ≤ j + 1 then some (f (j + 1 - w)) else none)).filterMap id
      = (List.range (n + 1 - w)).map f := by
  intro n
  induction n with
  | zero =>
      have : 0 + 1 - w = 0 := by omega
      simp [this]
  | succ m ih =>
      rw [List.range_succ, List.map_append, List.filterMap_append, ih]
      by_cases hm : w ≤ m + 1
      · have h1 : m + 1 + 1 - w = (m + 1 - w) + 1 := by omega
        rw [h1, List.range_succ, List.map_append]
        simp [hm]
      · have h1 : m + 1 + 1 - w = 0 := by omega
        have h2 : m + 1 - w = 0 := by omega
        simp [hm, h1, h2]

lemma rollingCompound_eq (w : ℕ) (hw : 1 ≤ w) (xs : List ℚ) :
    rollingCompound w xs = (List.range (xs.length + 1 - w)).map
      (fun i => (((xs.drop i).take w).map (fun r => 1 + r)).prod - 1) := by
  unfold rollingCompound rollingApplyProd
  exact filterMap_window
    (fun i => (((xs.drop i).take w).map (fun r => 1 + r)).prod - 1) w hw xs.length

lemma freq_series_aux (l : List ℚ) :
    (if l.length = 0 then (⟨l, 0, 0, 0⟩ : FreqResult)
     else ⟨l, PM.listMean l, Real.sqrt (sampleVarQ l),
       (l.getLast?).getD 0⟩).series = l := by
  split <;> rfl

lemma freq_series (daily_returns : List ℚ) (frequency : String) :
    (get_returns_for_frequency daily_returns frequency).series =
      (if frequency = "daily" then daily_returns
       else if frequency = "weekly" then rollingCompound 5 daily_returns
       else if frequency = "monthly" then rollingCompound 22 daily_returns
       else daily_returns) := by
  unfold get_returns_for_frequency
  exact freq_series_aux _

/-- C6: the resampler is the identity at daily frequency; at weekly frequency
it emits, for each position from the fifth onwards, the compounded return of
the window of the 5 most recent daily returns (the leading 4 positions are
dropped), and at monthly frequency the same with windows of 22. -/
theorem C6_resampler_windows (xs : List ℚ) :
    (get_returns_for_frequency xs "daily").series = xs
    ∧ (get_returns_for_frequency xs "weekly").series
        = (List.range (xs.length + 1 - 5)).map
            (fun i => (((xs.drop i).take 5).map (fun r => 1 + r)).prod - 1)
    ∧ ((get_returns_for_frequency xs "weekly").series).length = xs.length - 4
    ∧ (get_returns_for_frequency xs "monthly").series
        = (List.range (xs.length + 1 - 22)).map
            (fun i => (((xs.drop i).take 22).map (fun r => 1 + r)).prod - 1)
    ∧ ((get_returns_for_frequency xs "monthly").series).length = xs.length - 21 := by
  have hw : (get_returns_for_frequency xs "weekly").series
      = (List.range (xs.length + 1 - 5)).map
          (fun i => (((xs.drop i).take 5).map (fun r => 1 + r)).prod - 1) := by
    rw [freq_series, if_neg (by decide), if_pos rfl]
    exact rollingCompound_eq 5 (by norm_num) xs
  have hm : (get_returns_for_frequency xs "monthly").series
      = (List.range (xs.length + 1 - 22)).map
          (fun i => (((xs.drop i).take 22).map (fun r => 1 + r)).prod - 1) := by
    rw [freq_series, if_neg (by decide), if_neg (by decide), if_pos rfl]
    exact rollingCompound_eq 22 (by norm_num) xs
  refine ⟨by rw [freq_series, if_pos rfl], hw, ?_, hm, ?_⟩
  · rw [hw, List.length_map, List.length_range]
    omega
  · rw [hm, List.length_map, List.length_range]
    omega

/-! ## Portfolio aggregator: `calculate_portfolio_returns` -/

/-- The date index of a return series. -/
def seriesDates (s : List (ℕ × ℚ)) : List ℕ := s.map Prod.fst

/-- Value of a series at a date (dates are unique in a well-formed series). -/
def lookupVal (s : List (ℕ × ℚ)) (d : ℕ) : ℚ := (s.lookup d).getD 0

/-- The index of `pd.DataFrame(dict).dropna()`: the ascending union of all
date indices restricted to the dates present in every series — a strict
inner join. -/
def joinedDates (seriesList : List (List (ℕ × ℚ))) : List ℕ :=
  ((List.insertionSort (fun a b => a ≤ b)
      (seriesList.foldr (fun s acc => seriesDates s ++ acc) [])).dedup).filter
    (fun d => seriesList.all (fun s => decide (d ∈ seriesDates s)))

/-- Embeds `calculate_portfolio_returns`: normalize the weights, inner-join
the series on dates, and accumulate weight times value fund by fund for the
weighted funds present among the columns. -/
def calculate_portfolio_returns
    (fund_returns_dict : List (String × List (ℕ × ℚ)))
    (weights : List (String × ℚ)) : Option (List (ℕ × ℚ)) :=
  if fund_returns_dict = [] ∨ weights = [] then none
  else
    let total_weight := (weights.map Prod.snd).sum
    if total_weight = 0 then none
    else
      let normalized_weights := weights.map (fun p => (p.1, p.2 / total_weight))
      let dates := joinedDates (fund_returns_dict.map Prod.snd)
      if dates = [] then none
      else
        some (dates.map (fun d =>
          (d, normalized_weights.foldl (fun acc p =>
                if (fund_returns_dict.lookup p.1).isSome then
                  acc + lookupVal ((fund_returns_dict.lookup p.1).getD []) d * p.2
                else acc) 0)))

lemma lookupVal_cons_self (d : ℕ) (v : ℚ) (rest : List (ℕ × ℚ)) :
    lookupVal ((d, v) :: rest) d = v := by
  simp [lookupVal, List.lookup]

lemma lookupVal_cons_ne (d0 : ℕ) (v0 : ℚ) (rest : List (ℕ × ℚ)) (d : ℕ)
    (h : d ≠ d0) : lookupVal ((d0, v0) :: rest) d = lookupVal rest d := by
  have hbeq : (d == d0) = false := beq_eq_false_iff_ne.mpr h
  simp [lookupVal, List.lookup, hbeq]

/-- A series with distinct dates is reconstructed by looking itself up at
its own dates. -/
lemma map_lookupVal_self (s : List (ℕ × ℚ)) (h : (seriesDates s).Nodup) :
    (seriesDates s).map (fun d => (d, lookupVal s d)) = s := by
  induction s with
  | nil => rfl
  | cons p rest ih =>
      rcases p with ⟨d0, v0⟩
      rw [seriesDates, List.map_cons] at h
      have h1 : d0 ∉ seriesDates rest := (List.nodup_cons.mp h).1
      have h2 : (seriesDates rest).Nodup := (List.nodup_cons.mp h).2
      show (d0 :: seriesDates rest).map
        (fun d => (d, lookupVal ((d0, v0) :: rest) d)) = (d0, v0) :: rest
      rw [List.map_cons, lookupVal_cons_self]
      congr 1
      calc (seriesDates rest).map (fun d => (d, lookupVal ((d0, v0) :: rest) d))
          = (seriesDates rest).map (fun d => (d, lookupVal rest d)) := by
            apply List.map_congr_left
            intro d hd
            rw [lookupVal_cons_ne]
            exact fun he => h1 (he ▸ hd)
        _ = rest := ih h2

lemma joinedDates_single (s : List (ℕ × ℚ))
    (hs : (seriesDates s).Sorted (· < ·)) :
    joinedDates [s] = seriesDates s := by
  unfold joinedDates
  have hfold : ([s].foldr (fun t acc => seriesDates t ++ acc) []) = seriesDates s := by
    simp
  rw [hfold]
  have hsle : (seriesDates s).Sorted (· ≤ ·) := hs.le_of_lt
  rw [hsle.insertionSort_eq, (hs.nodup).dedup]
  apply List.filter_eq_self.mpr
  intro d hd
  simp [hd]

lemma joinedDates_pair (sa sb : List (ℕ × ℚ))
    (ha : (seriesDates sa).Sorted (· < ·)) :
    joinedDates [sa, sb]
      = (seriesDates sa).filter (fun d => decide (d ∈ seriesDates sb)) := by
  haveI : IsAntisymm ℕ (· < ·) := ⟨fun a b h1 h2 => by omega⟩
  set L := joinedDates [sa, sb] with hL
  set R := (seriesDates sa).filter (fun d => decide (d ∈ seriesDates sb)) with hR
  have hDsorted : (List.insertionSort (fun a b => a ≤ b)
      ([sa, sb].foldr (fun t acc => seriesDates t ++ acc) [])).dedup.Sorted (· ≤ ·) :=
    List.Pairwise.sublist (List.dedup_sublist _) (List.sorted_insertionSort _ _)
  have hDnodup : (List.insertionSort (fun a b => a ≤ b)
      ([sa, sb].foldr (fun t acc => seriesDates t ++ acc) [])).dedup.Nodup :=
    List.nodup_dedup _
  have hDlt := hDsorted.lt_of_le hDnodup
  have hLsorted : L.Sorted (· < ·) :=
    List.Pairwise.sublist (List.filter_sublist _) hDlt
  have hLnodup : L.Nodup := hLsorted.nodup
  have hRsorted : R.Sorted (· < ·) :=
    List.Pairwise.sublist (List.filter_sublist _) ha
  have hRnodup : R.Nodup := hRsorted.nodup
  have hmemL : ∀ d, d ∈ L ↔ d ∈ seriesDates sa ∧ d ∈ seriesDates sb := by
    intro d
    rw [hL]
    unfold joinedDates
    simp only [List.mem_filter, List.mem_dedup, List.mem_insertionSort,
      List.foldr_cons, List.foldr_nil, List.append_nil, List.mem_append,
      List.all_cons, List.all_nil, Bool.and_true, Bool.and_eq_true,
      decide_eq_true_eq]
    constructor
    · rintro ⟨_, hpa, hpb⟩
      exact ⟨hpa, hpb⟩
    · rintro ⟨hpa, hpb⟩
      exact ⟨Or.inl hpa, hpa, hpb⟩
  have hmemR : ∀ d, d ∈ R ↔ d ∈ seriesDates sa ∧ d ∈ seriesDates sb := by
    intro d
    rw [hR]
    simp [List.mem_filter]
  have hperm : List.Perm L R :=
    (List.perm_ext_iff_of_nodup hLnodup hRnodup).mpr
      (fun d => (hmemL d).trans (hmemR d).symm)
  exact List.eq_of_perm_of_sorted hperm hLsorted hRsorted

/-- C7: aggregating a single fund at weight 1.0 reproduces its series on the
joined date range; aggregating two funds with weights 1 and 1 normalizes the
weights to one half each and yields half of each series summed over the
intersected dates. -/
theorem C7_portfolio_aggregation :
    (∀ s : List (ℕ × ℚ), s ≠ [] → (seriesDates s).Sorted (· < ·) →
      calculate_portfolio_returns [( "A", s)] [( "A", 1)] = some s)
    ∧ (∀ sa sb : List (ℕ × ℚ),
        (seriesDates sa).Sorted (· < ·) → (seriesDates sb).Sorted (· < ·) →
        (∃ d, d ∈ seriesDates sa ∧ d ∈ seriesDates sb) →
        calculate_portfolio_returns [( "A", sa), ( "B", sb)]
            [( "A", 1), ( "B", 1)]
          = some (((seriesDates sa).filter
                (fun d => decide (d ∈ seriesDates sb))).map
              (fun d => (d, 1 / 2 * lookupVal sa d + 1 / 2 * lookupVal sb d)))) := by
  constructor
  · intro s hne hs
    have hne2 : seriesDates s ≠ [] := by
      simpa [seriesDates] using hne
    have hjd : joinedDates [s] = seriesDates s := joinedDates_single s hs
    simp only [calculate_portfolio_returns, List.map_cons, List.map_nil,
      List.sum_cons, List.sum_nil, add_zero, hjd]
    rw [if_neg (by simp), if_neg (by norm_num : ¬ (1 : ℚ) = 0), if_neg hne2]
    conv_rhs => rw [← map_lookupVal_self s hs.nodup]
    congr 1
    apply List.map_congr_left
    intro d hd
    simp [List.lookup, lookupVal]
  · intro sa sb ha hb hmeet
    have hjd : joinedDates [sa, sb]
        = (seriesDates sa).filter (fun d => decide (d ∈ seriesDates sb)) :=
      joinedDates_pair sa sb ha
    have hne2 : (seriesDates sa).filter
        (fun d => decide (d ∈ seriesDates sb)) ≠ [] := by
      rcases hmeet with ⟨d, hda, hdb⟩
      exact List.ne_nil_of_mem (List.mem_filter.mpr ⟨hda, by simpa using hdb⟩)
    simp only [calculate_portfolio_returns, List.map_cons, List.map_nil,
      List.sum_cons, List.sum_nil, add_zero, hjd]
    rw [if_neg (by simp), if_neg (by norm_num : ¬ (1 + (1 : ℚ)) = 0),
      if_neg hne2]
    congr 1
    apply List.map_congr_left
    intro d hd
    have hlupA : List.lookup "A" [( "A", sa), ( "B", sb)] = some sa := by
      simp [List.lookup]
    have hlupB : List.lookup "B" [( "A", sa), ( "B", sb)] = some sb := by
      simp [List.lookup]
    simp only [List.foldl_cons, List.foldl_nil, hlupA, hlupB, Option.isSome_some,
      if_pos, Option.getD_some]
    norm_num
    ring

/-- Concrete single-fund series used to witness C7. -/
def c7s : List (ℕ × ℚ) := [(1, 3), (2, 5)]

/-- Concrete fund-A series used to witness C7. -/
def c7sa : List (ℕ × ℚ) := [(1, 3), (2, 5)]

/-- Concrete fund-B series used to witness C7. -/
def c7sb : List (ℕ × ℚ) := [(2, 7), (3, 9)]

/-- Witness for C7 at concrete two-point series overlapping on one date. -/
theorem C7_portfolio_aggregation_witness :
    calculate_portfolio_returns [( "A", c7s)] [( "A", 1)] = some c7s
    ∧ calculate_portfolio_returns [( "A", c7sa), ( "B", c7sb)]
          [( "A", 1), ( "B", 1)]
        = some (((seriesDates c7sa).filter
              (fun d => decide (d ∈ seriesDates c7sb))).map
            (fun d => (d, 1 / 2 * lookupVal c7sa d + 1 / 2 * lookupVal c7sb d))) :=
  ⟨C7_portfolio_aggregation.1 c7s (by decide) (by decide),
   C7_portfolio_aggregation.2 c7sa c7sb (by decide) (by decide)
     ⟨2, by decide, by decide⟩⟩

/-! ## Annualized return and Sortino ratio (real-valued model) -/

/-- `.mean()` over the reals. -/
noncomputable def rlistMean (xs : List ℝ) : ℝ := xs.sum / (xs.length : ℝ)

/-- Embeds `PortfolioMetrics.annualized_return`; the Python float power is
the real power. -/
noncomputable def annualized_return (returns : List ℝ)
    (periods_per_year : ℕ) : ℝ :=
  if returns.length = 0 then 0
  else
    let total_return := ((returns.map (fun r => 1 + r)).prod) - 1
    let years : ℝ := (returns.length : ℝ) / (periods_per_year : ℝ)
    if years ≤ 0 then 0
    else (1 + total_return) ^ ((1 : ℝ) / years) - 1

/-- Embeds `PortfolioMetrics.sortino_ratio`; `float(inf)` is the top element
of `EReal`. The downside deviation in the code averages `r ** 2` over the
downside observations only. -/
noncomputable def sortino_ratio (returns : List ℝ) (target_return : ℝ)
    (periods_per_year : ℕ) : EReal :=
  if returns.length < 2 then (0 : EReal)
  else
    let ann_ret := annualized_return returns periods_per_year
    let downside_returns := returns.filter (fun r => decide (r < target_return))
    if downside_returns.length = 0 then
      (if target_return < ann_ret then (⊤ : EReal) else 0)
    else
      let downside_std :=
        Real.sqrt (rlistMean (downside_returns.map (fun r => r ^ 2)))
          * Real.sqrt (periods_per_year : ℝ)
      if downside_std = 0 then
        (if target_return < ann_ret then (⊤ : EReal) else 0)
      else (((ann_ret - target_return) / downside_std : ℝ) : EReal)

/-- Modelled on the specification sentence for C3 only: the claimed downside
deviation, `√(mean over ALL observations of min(r − target, 0)²) ×
√periodsPerYear`, to be compared against the code. -/
noncomputable def spec_downside
    (returns : List ℝ) (target : ℝ) (periods_per_year : ℕ) : ℝ :=
  Real.sqrt (rlistMean (returns.map (fun r => (min (r - target) 0) ^ 2)))
    * Real.sqrt (periods_per_year : ℝ)

lemma filter_replicate_of_false {α : Type} (p : α → Bool) (a : α)
    (hp : p a = false) : ∀ n, (List.replicate n a).filter p = [] := by
  intro n
  induction n with
  | zero => rfl
  | succ m ih => rw [List.replicate_succ, List.filter_cons, hp]; exact ih

/-- Input series for the C3 counterexample: one loss of 10%, one gain of 10%
and 250 flat days — 252 observations in all. -/
noncomputable def c3List : List ℝ :=
  (-(1 / 10)) :: (1 / 10) :: List.replicate 250 0

lemma c3List_length : c3List.length = 252 := by
  unfold c3List
  rw [List.length_cons, List.length_cons, List.length_replicate]

lemma c3List_filter :
    c3List.filter (fun r => decide (r < (0 : ℝ))) = [-(1 / 10)] := by
  unfold c3List
  have h1 : (decide ((-(1 / 10) : ℝ) < 0)) = true := by
    rw [decide_eq_true_eq]; norm_num
  have h2 : (decide (((1 : ℝ) / 10) < 0)) = false := by
    rw [decide_eq_false_iff_not]; norm_num
  have h3 : (decide ((0 : ℝ) < 0)) = false := by
    rw [decide_eq_false_iff_not]; norm_num
  have h4 := filter_replicate_of_false (fun r : ℝ => decide (r < 0)) 0 h3 250
  rw [List.filter_cons, List.filter_cons, h1, h2]
  simp only [if_true, Bool.false_eq_true, if_false]
  rw [h4]

lemma c3_ann_ret : annualized_return c3List 252 = -(1 / 100) := by
  have hprod : ((c3List.map (fun r => 1 + r)).prod : ℝ) = 99 / 100 := by
    unfold c3List
    rw [List.map_cons, List.map_cons, List.map_replicate, List.prod_cons,
      List.prod_cons, List.prod_replicate]
    norm_num
  simp only [annualized_return, hprod, c3List_length]
  rw [if_neg (by norm_num)]
  rw [if_neg (by push_cast; norm_num)]
  have hexp : ((1 : ℝ) / (((252 : ℕ) : ℝ) / ((252 : ℕ) : ℝ))) = 1 := by
    push_cast
    norm_num
  rw [hexp, Real.rpow_one]
  norm_num

lemma c3_mean_single :
    rlistMean ([-(1 / 10 : ℝ)].map (fun r => r ^ 2)) = 1 / 100 := by
  unfold rlistMean
  norm_num

lemma c3_sqrt_cent : Real.sqrt (1 / 100) = 1 / 10 := by
  rw [show ((1 : ℝ) / 100) = (1 / 10) ^ 2 by norm_num]
  exact Real.sqrt_sq (by norm_num)

lemma c3_code_sortino :
    sortino_ratio c3List 0 252
      = (((-(1 / 100)) / ((1 / 10) * Real.sqrt ((252 : ℕ) : ℝ)) : ℝ) : EReal) := by
  have hstd : (1 / 10 : ℝ) * Real.sqrt ((252 : ℕ) : ℝ) ≠ 0 := by
    have hp : (0 : ℝ) < Real.sqrt ((252 : ℕ) : ℝ) := by
      rw [Real.sqrt_pos]
      norm_num
    positivity
  simp only [sortino_ratio, c3List_filter, c3List_length, c3_ann_ret,
    c3_mean_single, c3_sqrt_cent]
  rw [if_neg (by norm_num)]
  rw [if_neg (by simp)]
  rw [if_neg hstd]
  rw [sub_zero]

lemma c3_spec_value :
    (annualized_return c3List 252 - 0) / spec_downside c3List 0 252
      = -(1 / 10) := by
  have e1 : (min ((-(1 / 10) : ℝ) - 0) 0) ^ 2 = 1 / 100 := by
    rw [sub_zero, min_eq_left (by norm_num : (-(1 / 10) : ℝ) ≤ 0)]
    norm_num
  have e2 : (min (((1 : ℝ) / 10) - 0) 0) ^ 2 = 0 := by
    rw [sub_zero, min_eq_right (by norm_num : (0 : ℝ) ≤ 1 / 10)]
    norm_num
  have e3 : (min ((0 : ℝ) - 0) 0) ^ 2 = 0 := by
    norm_num
  have hmap : c3List.map (fun r => (min (r - 0) 0) ^ 2)
      = (1 / 100) :: (0 : ℝ) :: List.replicate 250 0 := by
    unfold c3List
    rw [List.map_cons, List.map_cons, List.map_replicate, e1, e2, e3]
  have hmean : rlistMean (c3List.map (fun r => (min (r - 0) 0) ^ 2))
      = 1 / 25200 := by
    rw [hmap]
    unfold rlistMean
    rw [List.sum_cons, List.sum_cons, List.sum_replicate]
    rw [List.length_cons, List.length_cons, List.length_replicate]
    push_cast
    norm_num
  have hmul : Real.sqrt (1 / 25200) * Real.sqrt ((252 : ℕ) : ℝ)
      = 1 / 10 := by
    push_cast
    rw [← Real.sqrt_mul (by norm_num : (0 : ℝ) ≤ 1 / 25200)]
    rw [show ((1 : ℝ) / 25200 * 252) = (1 / 10) ^ 2 by norm_num]
    exact Real.sqrt_sq (by norm_num)
  unfold spec_downside
  rw [hmean, hmul, c3_ann_ret]
  norm_num

/-- C3 counterexample: at a 252-observation series the code Sortino differs
from the claimed formula, because the code averages squared returns over the
downside observations only, not `min(r − target, 0)²` over the whole series. -/
theorem C3_sortino_counterexample :
    sortino_ratio c3List 0 252
      ≠ (((annualized_return c3List 252 - 0)
          / spec_downside c3List 0 252 : ℝ) : EReal) := by
  rw [c3_code_sortino, c3_spec_value]
  rw [Ne, EReal.coe_eq_coe_iff]
  intro h
  have hs : (0 : ℝ) < Real.sqrt ((252 : ℕ) : ℝ) := by
    rw [Real.sqrt_pos]
    norm_num
  have hne : ((1 : ℝ) / 10) * Real.sqrt ((252 : ℕ) : ℝ) ≠ 0 := by positivity
  rw [div_eq_iff hne] at h
  ring_nf at h
  have h252 : Real.sqrt 252 = 1 := by linarith
  have hsq := Real.sq_sqrt (show (0 : ℝ) ≤ 252 by norm_num)
  rw [h252] at hsq
  norm_num at hsq

/-- C3 (amended): for a series with at least 2 observations, the Sortino
ratio is (annualized return − target) divided by √(mean of r² over the
returns strictly below the target) × √periodsPerYear; when no return lies
below the target, or when that denominator is zero, it is +infinity if the
annualized return exceeds the target and 0 otherwise. -/
theorem C3_sortino_ratio_spec (returns : List ℝ) (target : ℝ) (ppy : ℕ)
    (h2 : 2 ≤ returns.length) :
    (returns.filter (fun r => decide (r < target)) = [] →
        sortino_ratio returns target ppy
          = if target < annualized_return returns ppy then (⊤ : EReal) else 0)
    ∧ (∀ ds, returns.filter (fun r => decide (r < target)) = ds → ds ≠ [] →
        Real.sqrt (rlistMean (ds.map (fun r => r ^ 2)))
            * Real.sqrt (ppy : ℝ) = 0 →
        sortino_ratio returns target ppy
          = if target < annualized_return returns ppy then (⊤ : EReal) else 0)
    ∧ (∀ ds, returns.filter (fun r => decide (r < target)) = ds → ds ≠ [] →
        Real.sqrt (rlistMean (ds.map (fun r => r ^ 2)))
            * Real.sqrt (ppy : ℝ) ≠ 0 →
        sortino_ratio returns target ppy
          = (((annualized_return returns ppy - target)
              / (Real.sqrt (rlistMean (ds.map (fun r => r ^ 2)))
                  * Real.sqrt (ppy : ℝ)) : ℝ) : EReal)) := by
  refine ⟨?_, ?_, ?_⟩
  · intro hempty
    unfold sortino_ratio
    rw [if_neg (by omega), hempty]
    rfl
  · intro ds hds hne hstd0
    unfold sortino_ratio
    rw [if_neg (by omega), hds,
      if_neg (by simpa [List.length_eq_zero] using hne), if_pos hstd0]
  · intro ds hds hne hstd
    unfold sortino_ratio
    rw [if_neg (by omega), hds,
      if_neg (by simpa [List.length_eq_zero] using hne), if_neg hstd]

lemma c3z_filter :
    [(0 : ℝ), 1].filter (fun r => decide (r < (1 / 2 : ℝ))) = [(0 : ℝ)] := by
  have h1 : (decide ((0 : ℝ) < 1 / 2)) = true := by
    rw [decide_eq_true_eq]; norm_num
  have h2 : (decide ((1 : ℝ) < 1 / 2)) = false := by
    rw [decide_eq_false_iff_not]; norm_num
  rw [List.filter_cons, List.filter_cons, List.filter_nil, h1, h2]
  simp

lemma c3z_std_zero :
    Real.sqrt (rlistMean ([(0 : ℝ)].map (fun r => r ^ 2)))
      * Real.sqrt ((2 : ℕ) : ℝ) = 0 := by
  have hm : rlistMean ([(0 : ℝ)].map (fun r => r ^ 2)) = 0 := by
    unfold rlistMean
    norm_num
  rw [hm, Real.sqrt_zero, zero_mul]

/-- Witness for C3 (amended): the ratio branch at the concrete
252-observation series, and the zero-denominator degenerate branch at the
series [0, 1] with target one half, where the downside set is the nonempty
[0] and the downside deviation vanishes. -/
theorem C3_sortino_ratio_spec_witness :
    sortino_ratio c3List 0 252
      = (((annualized_return c3List 252 - 0)
          / (Real.sqrt (rlistMean ([-(1 / 10 : ℝ)].map (fun r => r ^ 2)))
              * Real.sqrt ((252 : ℕ) : ℝ)) : ℝ) : EReal)
    ∧ sortino_ratio [(0 : ℝ), 1] (1 / 2) 2
        = (if (1 / 2 : ℝ) < annualized_return [(0 : ℝ), 1] 2 then (⊤ : EReal)
           else 0) :=
  ⟨(C3_sortino_ratio_spec c3List 0 252 (by rw [c3List_length]; norm_num)).2.2
    [-(1 / 10)] c3List_filter (by simp)
    (by
      have hmean : rlistMean ([-(1 / 10 : ℝ)].map (fun r => r ^ 2)) = 1 / 100 := by
        unfold rlistMean
        norm_num
      rw [hmean, show ((1 : ℝ) / 100) = (1 / 10) ^ 2 by norm_num,
        Real.sqrt_sq (by norm_num)]
      have : (0 : ℝ) < Real.sqrt ((252 : ℕ) : ℝ) := by
        rw [Real.sqrt_pos]
        norm_num
      positivity),
   (C3_sortino_ratio_spec [(0 : ℝ), 1] (1 / 2) 2 (by simp)).2.1
    [(0 : ℝ)] c3z_filter (by simp) c3z_std_zero⟩

/-! ## Flow analyzer: `calculate_fund_flow_metrics` -/

/-- The result dictionary of `calculate_fund_flow_metrics`. -/
structure FlowMetrics where
  aum : Option ℚ
  shareholders : Option ℤ
  daily_transfers : ℚ
  daily_transfers_pct : ℚ
  daily_investors : ℤ
  daily_investors_pct : ℚ
  weekly_transfers : ℚ
  weekly_transfers_pct : ℚ
  weekly_investors : ℤ
  weekly_investors_pct : ℚ
  monthly_transfers : ℚ
  monthly_transfers_pct : ℚ
  monthly_investors : ℤ
  monthly_investors_pct : ℚ
deriving DecidableEq, Repr

/-- Python `int()` truncation toward zero on an exact rational. -/
def qtrunc (q : ℚ) : ℤ := q.num / (q.den : ℤ)

/-- `safe_pct`: percentage of value over base, 0 when the base is absent or
zero. -/
def safe_pct (value : ℚ) (base : Option ℚ) : ℚ :=
  match base with
  | some b => if b ≠ 0 then value / b * 100 else 0
  | none => 0

/-- `reset_index()` followed by `set_index` on the original first column with
`to_datetime`, as done by `calculate_fund_flow_metrics` when the index is not
yet datetime: the old index survives as a leading `index` column and the
original first column becomes the date index. -/
def DFrame.resetSetDateIndex (df : DFrame) : DFrame :=
  match df.colNames with
  | [] => df
  | c :: cs =>
      { colNames := "index" :: cs,
        index := (df.getCol c).map (fun v => Cell.dt (dateOfCell v)),
        rows := (df.index.zip df.rows).map (fun p => p.1 :: p.2.drop 1),
        indexIsDate := true }

/-- Keep the first row per index date, in list order. -/
def dedupPairsByDate : List (Cell × List Cell) → List ℕ → List (Cell × List Cell)
  | [], _ => []
  | p :: ps, seen =>
      if dateOfCell p.1 ∈ seen then dedupPairsByDate ps seen
      else p :: dedupPairsByDate ps (dateOfCell p.1 :: seen)

/-- Duplicate-date handling of the flow pipeline when shareholder counts
exist: sort descending by `NR_COTST` and keep the first row per date. -/
def DFrame.dedupByMaxCotst (df : DFrame) : DFrame :=
  match df.colIdx "NR_COTST" with
  | none => df
  | some ci =>
      let pairs := df.index.zip df.rows
      let sorted := List.insertionSort
        (fun a b => qOfCell (b.2.getD ci Cell.null)
          ≤ qOfCell (a.2.getD ci Cell.null)) pairs
      let dd := dedupPairsByDate sorted []
      { df with index := dd.map (fun p => p.1), rows := dd.map (fun p => p.2) }

/-- Row filtering, date indexing, duplicate handling and the date sort at the
head of `calculate_fund_flow_metrics`. -/
def prepareFlowFrame (df : DFrame) (cnpj : String) : Option DFrame :=
  if df.hasCol "CNPJ_STANDARD" then
    let fund_data := df.filterByCol "CNPJ_STANDARD" (Cell.str cnpj)
    if fund_data.rows.length = 0 then none
    else
      let fd := if fund_data.indexIsDate then fund_data
                else fund_data.resetSetDateIndex
      let fd2 := if fd.hasCol "NR_COTST" then fd.dedupByMaxCotst else fd
      some fd2.sortByDateIndex
  else none

/-- The metric computation of `calculate_fund_flow_metrics` on the prepared
frame: current values, daily deltas, weekly windows over the last 5 and 6
points and monthly windows over the last 22 and 23 points, each falling back
to the shorter-horizon figure when history is too short. -/
def computeFlowMetrics (fd : DFrame) : Option FlowMetrics :=
  if fd.rows.length < 2 then none
  else
    let has_aum := fd.hasCol "VL_PATRIM_LIQ"
    let has_shareholders := fd.hasCol "NR_COTST"
    let has_transfers := fd.hasCol "MOVIMENTACAO"
    if has_aum = false ∧ has_shareholders = false then none
    else
      let n := fd.rows.length
      let aumCol := (fd.getCol "VL_PATRIM_LIQ").map qOfCell
      let shCol := (fd.getCol "NR_COTST").map qOfCell
      let trCol := (fd.getCol "MOVIMENTACAO").map qOfCell
      let current_aum := if has_aum then some (aumCol.getD (n - 1) 0) else none
      let current_shareholders :=
        if has_shareholders then some (qtrunc (shCol.getD (n - 1) 0)) else none
      let daily_transfers := if has_transfers then trCol.getD (n - 1) 0 else 0
      let daily_investors_change : ℚ :=
        if has_shareholders ∧ 2 ≤ n then
          shCol.getD (n - 1) 0 - shCol.getD (n - 2) 0
        else 0
      let weekly_transfers :=
        if 5 ≤ n ∧ has_transfers then (trCol.drop (n - 5)).sum
        else daily_transfers
      let weekly_investors_change :=
        if 6 ≤ n ∧ has_shareholders then
          shCol.getD (n - 1) 0 - shCol.getD (n - 6) 0
        else daily_investors_change
      let monthly_transfers :=
        if 22 ≤ n ∧ has_transfers then (trCol.drop (n - 22)).sum
        else weekly_transfers
      let monthly_investors_change :=
        if 23 ≤ n ∧ has_shareholders then
          shCol.getD (n - 1) 0 - shCol.getD (n - 23) 0
        else weekly_investors_change
      some { aum := current_aum,
             shareholders := current_shareholders,
             daily_transfers := daily_transfers,
             daily_transfers_pct := safe_pct daily_transfers current_aum,
             daily_investors := qtrunc daily_investors_change,
             daily_investors_pct := safe_pct daily_investors_change
               (current_shareholders.map (fun z => (z : ℚ))),
             weekly_transfers := weekly_transfers,
             weekly_transfers_pct := safe_pct weekly_transfers current_aum,
             weekly_investors := qtrunc weekly_investors_change,
             weekly_investors_pct := safe_pct weekly_investors_change
               (current_shareholders.map (fun z => (z : ℚ))),
             monthly_transfers := monthly_transfers,
             monthly_transfers_pct := safe_pct monthly_transfers current_aum,
             monthly_investors := qtrunc monthly_investors_change,
             monthly_investors_pct := safe_pct monthly_investors_change
               (current_shareholders.map (fun z => (z : ℚ))) }

/-- Embeds `calculate_fund_flow_metrics`. -/
def calculate_fund_flow_metrics (fund_details : Option DFrame)
    (cnpj_standard : Option String) : Option FlowMetrics :=
  match fund_details, cnpj_standard with
  | none, _ => none
  | _, none => none
  | some df, some cnpj =>
      match prepareFlowFrame df cnpj with
      | none => none
      | some fd => computeFlowMetrics fd

/-- Table used for the C9 counterexample and witness: three rows of AUM and
transfer data on three distinct dates. -/
def c9Table : DFrame :=
  ⟨[ "CNPJ_STANDARD", "VL_PATRIM_LIQ", "MOVIMENTACAO"],
   [Cell.dt 1, Cell.dt 2, Cell.dt 3],
   [[Cell.str "C", Cell.num 100, Cell.num 5],
    [Cell.str "C", Cell.num 100, Cell.num 7],
    [Cell.str "C", Cell.num 100, Cell.num 9]], true⟩

/-- C9 counterexample: with only 3 transfer observations available, the
weekly transfer figure is not the sum of however many exist (5 + 7 + 9 = 21);
it falls back to the daily figure, the last transfer value 9. -/
theorem C9_flow_counterexample :
    (calculate_fund_flow_metrics (some c9Table) (some "C")).map
        (fun m => m.weekly_transfers) = some 9
    ∧ (9 : ℚ) ≠ 5 + 7 + 9 := by
  constructor
  · decide
  · norm_num

/-- C9 (amended): the weekly transfer figure is the sum of the last 5
transfer values when at least 5 rows exist and otherwise falls back to the
daily figure (the last transfer value, not a partial sum); the weekly
shareholder delta spans the last 6 points with the same fallback to the
daily delta; the monthly figures span the last 22 and 23 points respectively,
falling back to the weekly figures. -/
theorem C9_flow_windows (df : DFrame) (cnpj : String) (fd : DFrame)
    (hprep : prepareFlowFrame df cnpj = some fd)
    (hlen : ¬ fd.rows.length < 2)
    (hcols : ¬ (fd.hasCol "VL_PATRIM_LIQ" = false
        ∧ fd.hasCol "NR_COTST" = false)) :
    ∃ m, calculate_fund_flow_metrics (some df) (some cnpj) = some m
      ∧ m.daily_transfers
          = (if fd.hasCol "MOVIMENTACAO" then
              ((fd.getCol "MOVIMENTACAO").map qOfCell).getD
                (fd.rows.length - 1) 0
             else 0)
      ∧ m.weekly_transfers
          = (if 5 ≤ fd.rows.length ∧ fd.hasCol "MOVIMENTACAO" then
              (((fd.getCol "MOVIMENTACAO").map qOfCell).drop
                (fd.rows.length - 5)).sum
             else m.daily_transfers)
      ∧ m.monthly_transfers
          = (if 22 ≤ fd.rows.length ∧ fd.hasCol "MOVIMENTACAO" then
              (((fd.getCol "MOVIMENTACAO").map qOfCell).drop
                (fd.rows.length - 22)).sum
             else m.weekly_transfers)
      ∧ m.weekly_investors
          = qtrunc (if 6 ≤ fd.rows.length ∧ fd.hasCol "NR_COTST" then
              ((fd.getCol "NR_COTST").map qOfCell).getD (fd.rows.length - 1) 0
                - ((fd.getCol "NR_COTST").map qOfCell).getD
                    (fd.rows.length - 6) 0
             else (if fd.hasCol "NR_COTST" ∧ 2 ≤ fd.rows.length then
              ((fd.getCol "NR_COTST").map qOfCell).getD (fd.rows.length - 1) 0
                - ((fd.getCol "NR_COTST").map qOfCell).getD
                    (fd.rows.length - 2) 0
             else 0))
      ∧ m.monthly_investors
          = qtrunc (if 23 ≤ fd.rows.length ∧ fd.hasCol "NR_COTST" then
              ((fd.getCol "NR_COTST").map qOfCell).getD (fd.rows.length - 1) 0
                - ((fd.getCol "NR_COTST").map qOfCell).getD
                    (fd.rows.length - 23) 0
             else (if 6 ≤ fd.rows.length ∧ fd.hasCol "NR_COTST" then
              ((fd.getCol "NR_COTST").map qOfCell).getD (fd.rows.length - 1) 0
                - ((fd.getCol "NR_COTST").map qOfCell).getD
                    (fd.rows.length - 6) 0
             else (if fd.hasCol "NR_COTST" ∧ 2 ≤ fd.rows.length then
              ((fd.getCol "NR_COTST").map qOfCell).getD (fd.rows.length - 1) 0
                - ((fd.getCol "NR_COTST").map qOfCell).getD
                    (fd.rows.length - 2) 0
             else 0))) := by
  have hcalc : calculate_fund_flow_metrics (some df) (some cnpj)
      = computeFlowMetrics fd := by
    simp only [calculate_fund_flow_metrics, hprep]
  rw [hcalc]
  simp only [computeFlowMetrics]
  rw [if_neg hlen, if_neg hcols]
  exact ⟨_, rfl, rfl, rfl, rfl, rfl, rfl⟩

/-- Witness for C9 at the concrete three-row table. -/
theorem C9_flow_windows_witness :
    ∃ m, calculate_fund_flow_metrics (some c9Table) (some "C") = some m
      ∧ m.daily_transfers
          = (if c9Table.hasCol "MOVIMENTACAO" then
              ((c9Table.getCol "MOVIMENTACAO").map qOfCell).getD
                (c9Table.rows.length - 1) 0
             else 0)
      ∧ m.weekly_transfers
          = (if 5 ≤ c9Table.rows.length ∧ c9Table.hasCol "MOVIMENTACAO" then
              (((c9Table.getCol "MOVIMENTACAO").map qOfCell).drop
                (c9Table.rows.length - 5)).sum
             else m.daily_transfers)
      ∧ m.monthly_transfers
          = (if 22 ≤ c9Table.rows.length ∧ c9Table.hasCol "MOVIMENTACAO" then
              (((c9Table.getCol "MOVIMENTACAO").map qOfCell).drop
                (c9Table.rows.length - 22)).sum
             else m.weekly_transfers)
      ∧ m.weekly_investors
          = qtrunc (if 6 ≤ c9Table.rows.length ∧ c9Table.hasCol "NR_COTST" then
              ((c9Table.getCol "NR_COTST").map qOfCell).getD
                  (c9Table.rows.length - 1) 0
                - ((c9Table.getCol "NR_COTST").map qOfCell).getD
                    (c9Table.rows.length - 6) 0
             else (if c9Table.hasCol "NR_COTST" ∧ 2 ≤ c9Table.rows.length then
              ((c9Table.getCol "NR_COTST").map qOfCell).getD
                  (c9Table.rows.length - 1) 0
                - ((c9Table.getCol "NR_COTST").map qOfCell).getD
                    (c9Table.rows.length - 2) 0
             else 0))
      ∧ m.monthly_investors
          = qtrunc (if 23 ≤ c9Table.rows.length ∧ c9Table.hasCol "NR_COTST" then
              ((c9Table.getCol "NR_COTST").map qOfCell).getD
                  (c9Table.rows.length - 1) 0
                - ((c9Table.getCol "NR_COTST").map qOfCell).getD
                    (c9Table.rows.length - 23) 0
             else (if 6 ≤ c9Table.rows.length ∧ c9Table.hasCol "NR_COTST" then
              ((c9Table.getCol "NR_COTST").map qOfCell).getD
                  (c9Table.rows.length - 1) 0
                - ((c9Table.getCol "NR_COTST").map qOfCell).getD
                    (c9Table.rows.length - 6) 0
             else (if c9Table.hasCol "NR_COTST" ∧ 2 ≤ c9Table.rows.length then
              ((c9Table.getCol "NR_COTST").map qOfCell).getD
                  (c9Table.rows.length - 1) 0
                - ((c9Table.getCol "NR_COTST").map qOfCell).getD
                    (c9Table.rows.length - 2) 0
             else 0))) :=
  C9_flow_windows c9Table "C" c9Table (by decide) (by decide) (by decide)

/-! ## Allocation optimizer: the `/optimize` endpoint pipeline

The SciPy `minimize` call is an external collaborator; its outcome (success
flag, weight vector, iteration count) enters the embedded pipeline as data.
The bounds `min_weight`/`max_weight` only parameterize that external call. -/

/-- Outcome of the external SciPy SLSQP solve. -/
structure SolverResult where
  success : Bool
  x : List ℚ
  nit : ℕ
deriving DecidableEq, Repr

/-- The failures the endpoint raises: the two insufficient-data
preconditions (HTTP 400) and non-convergence (HTTP 500). -/
inductive OptFailure where
  | insufficientFunds
  | insufficientOverlap
  | notConverged
deriving DecidableEq, Repr

/-- The success payload `OptimizationResult`. -/
structure OptResult where
  weights : List (String × ℚ)
  expected_return : ℚ
  expected_risk : ℝ
  sharpe : ℝ
  status : String
  iterations : ℕ

/-- `np.dot` of two aligned vectors. -/
def dotQ (a b : List ℚ) : ℚ := (List.zipWith (fun x y => x * y) a b).sum

/-- Pairwise sample covariance with the pandas default `ddof=1`. -/
def sampleCovQ (xs ys : List ℚ) : ℚ :=
  (List.zipWith (fun x y => (x - PM.listMean xs) * (y - PM.listMean ys)) xs ys).sum
    / ((xs.length : ℚ) - 1)

/-- The per-fund eligibility filter of the endpoint loop: only funds whose
extracted series has at least 252 observations enter `returns_dict`. -/
def eligible (rd : List (String × List (ℕ × ℚ))) :
    List (String × List (ℕ × ℚ)) :=
  rd.filter (fun p => decide (252 ≤ p.2.length))

/-- The joined index of `pd.DataFrame(returns_dict).dropna()`. -/
def optJoinedDates (rd : List (String × List (ℕ × ℚ))) : List ℕ :=
  joinedDates ((eligible rd).map Prod.snd)

/-- The aligned return matrix, one column per eligible fund. -/
def optCols (rd : List (String × List (ℕ × ℚ))) : List (List ℚ) :=
  (eligible rd).map (fun p => (optJoinedDates rd).map (fun d => lookupVal p.2 d))

/-- `returns_df.mean() * 252`, the annualized mean-return vector. -/
def optMeans (rd : List (String × List (ℕ × ℚ))) : List ℚ :=
  (optCols rd).map (fun c => PM.listMean c * 252)

/-- `optimal_weights[optimal_weights < threshold] = 0` with the 1%
threshold. -/
def zeroSmall (x : List ℚ) : List ℚ :=
  x.map (fun v => if v < 1 / 100 then 0 else v)

/-- The renormalization `optimal_weights / optimal_weights.sum()` after
zeroing. -/
def renormWeights (x : List ℚ) : List ℚ :=
  (zeroSmall x).map (fun v => v / (zeroSmall x).sum)

/-- `w^T (cov * 252) w`, the annualized portfolio variance. -/
def optVariance (rd : List (String × List (ℕ × ℚ))) (w : List ℚ) : ℚ :=
  (List.zipWith (fun wi ci =>
      (List.zipWith (fun wj cj => wi * wj * (sampleCovQ ci cj * 252))
        w (optCols rd)).sum)
    w (optCols rd)).sum

/-- Embeds the `/optimize` endpoint from the eligibility filter onwards:
precondition checks, explicit non-convergence failure, 1% zeroing,
renormalization and the reported metrics. -/
noncomputable def optimize_portfolio (rd : List (String × List (ℕ × ℚ)))
    (min_weight max_weight : ℚ) (solver : SolverResult) :
    Except OptFailure OptResult :=
  if (eligible rd).length < 2 then .error .insufficientFunds
  else if (optJoinedDates rd).length < 252 then .error .insufficientOverlap
  else if solver.success = false then .error .notConverged
  else
    let w := renormWeights solver.x
    let opt_return := dotQ w (optMeans rd)
    let opt_vol := Real.sqrt ((optVariance rd w : ℚ) : ℝ)
    .ok { weights := (List.zip ((eligible rd).map Prod.fst) w).filter
            (fun p => decide (0 < p.2)),
          expected_return := opt_return,
          expected_risk := opt_vol,
          sharpe := if 0 < opt_vol then (opt_return : ℝ) / opt_vol else 0,
          status := "success",
          iterations := solver.nit }

lemma zeroSmall_nonneg (x : List ℚ) : ∀ v ∈ zeroSmall x, 0 ≤ v := by
  intro v hv
  rcases List.mem_map.mp hv with ⟨u, _, rfl⟩
  by_cases hu : u < 1 / 100
  · rw [if_pos hu]
  · rw [if_neg hu]
    have := not_lt.mp hu
    linarith

lemma zeroSmall_sum_pos (x : List ℚ) (hex : ∃ v ∈ x, 1 / 100 ≤ v) :
    0 < (zeroSmall x).sum := by
  rcases hex with ⟨v, hv, hge⟩
  have hmem : v ∈ zeroSmall x := by
    have : (if v < 1 / 100 then (0 : ℚ) else v) = v := by
      rw [if_neg (not_lt.mpr hge)]
    rw [← this]
    exact List.mem_map.mpr ⟨v, hv, rfl⟩
  have hle : v ≤ (zeroSmall x).sum :=
    List.single_le_sum (zeroSmall_nonneg x) v hmem
  linarith

lemma sum_map_div (l : List ℚ) (S : ℚ) :
    (l.map (fun v => v / S)).sum = l.sum / S := by
  induction l with
  | nil => simp
  | cons y ys ih => rw [List.map_cons, List.sum_cons, List.sum_cons, ih, add_div]

lemma renormWeights_sum (x : List ℚ) (hex : ∃ v ∈ x, 1 / 100 ≤ v) :
    (renormWeights x).sum = 1 := by
  unfold renormWeights
  rw [sum_map_div]
  exact div_self (ne_of_gt (zeroSmall_sum_pos x hex))

lemma renormWeights_nonneg (x : List ℚ) (hex : ∃ v ∈ x, 1 / 100 ≤ v) :
    ∀ v ∈ renormWeights x, 0 ≤ v := by
  intro v hv
  rcases List.mem_map.mp hv with ⟨u, hu, rfl⟩
  exact div_nonneg (zeroSmall_nonneg x u hu) (le_of_lt (zeroSmall_sum_pos x hex))

lemma snd_filter_zip (a : List String) (b : List ℚ) (h : a.length = b.length) :
    (((List.zip a b).filter (fun p => decide (0 < p.2))).map Prod.snd)
      = b.filter (fun v => decide (0 < v)) := by
  induction a generalizing b with
  | nil =>
      have hb : b = [] := by
        cases b with
        | nil => rfl
        | cons y ys => simp at h
      subst hb
      rfl
  | cons s ss ih =>
      cases b with
      | nil => simp at h
      | cons y ys =>
          have hlen2 : ss.length = ys.length := by simpa using h
          rw [List.zip_cons_cons, List.filter_cons, List.filter_cons]
          by_cases hy : 0 < y
          · have hd1 : (decide (0 < ((s, y) : String × ℚ).2)) = true := by
              simpa using hy
            rw [hd1]
            simp only [eq_self_iff_true, if_true]
            rw [List.map_cons, ih ys hlen2]
          · have hd1 : (decide (0 < ((s, y) : String × ℚ).2)) = false := by
              simpa using hy
            rw [hd1]
            simp only [Bool.false_eq_true, if_false]
            exact ih ys hlen2

lemma sum_filter_pos (b : List ℚ) (h : ∀ v ∈ b, 0 ≤ v) :
    (b.filter (fun v => decide (0 < v))).sum = b.sum := by
  induction b with
  | nil => rfl
  | cons y ys ih =>
      have hys : ∀ v ∈ ys, 0 ≤ v := fun v hv => h v (List.mem_cons_of_mem _ hv)
      rw [List.filter_cons]
      by_cases hy : 0 < y
      · have hd : (decide (0 < y)) = true := by simpa using hy
        rw [hd]
        simp only [if_true]
        rw [List.sum_cons, List.sum_cons, ih hys]
      · have h0 : y = 0 := le_antisymm (not_lt.mp hy) (h y (List.mem_cons_self _ _))
        have hd : (decide (0 < y)) = false := by simpa using hy
        rw [hd]
        simp only [Bool.false_eq_true, if_false]
        rw [List.sum_cons, h0, zero_add, ih hys]

/-- C2: on a successful solve the optimizer zeroes every weight below 1%,
renormalizes the survivors so the reported weights sum to 1 and are all
positive, and reports expected return, expected risk, Sharpe, solver status
and iteration count; on non-convergence it fails explicitly with no weight
vector, an error distinct from both insufficient-data failures. -/
theorem C2_optimizer_postprocessing (rd : List (String × List (ℕ × ℚ)))
    (minW maxW : ℚ) (solver : SolverResult)
    (h2 : ¬ (eligible rd).length < 2)
    (h252 : ¬ (optJoinedDates rd).length < 252) :
    (solver.success = false →
        optimize_portfolio rd minW maxW solver = .error .notConverged)
    ∧ (OptFailure.notConverged ≠ OptFailure.insufficientFunds
        ∧ OptFailure.notConverged ≠ OptFailure.insufficientOverlap)
    ∧ (solver.success = true → (∃ v ∈ solver.x, 1 / 100 ≤ v) →
        solver.x.length = (eligible rd).length →
        ∃ res, optimize_portfolio rd minW maxW solver = .ok res
          ∧ res.weights = (List.zip ((eligible rd).map Prod.fst)
              (renormWeights solver.x)).filter (fun p => decide (0 < p.2))
          ∧ (res.weights.map Prod.snd).sum = 1
          ∧ (∀ p ∈ res.weights, 0 < p.2)
          ∧ res.expected_return
              = dotQ (renormWeights solver.x) (optMeans rd)
          ∧ res.expected_risk
              = Real.sqrt ((optVariance rd (renormWeights solver.x) : ℚ) : ℝ)
          ∧ res.sharpe = (if 0 < res.expected_risk then
              (res.expected_return : ℝ) / res.expected_risk else 0)
          ∧ res.status = "success"
          ∧ res.iterations = solver.nit) := by
  refine ⟨?_, ⟨by decide, by decide⟩, ?_⟩
  · intro hfail
    simp only [optimize_portfolio]
    rw [if_neg h2, if_neg h252, if_pos hfail]
  · intro hsucc hex hlen
    have hnotfail : ¬ solver.success = false := by rw [hsucc]; simp
    have hok : optimize_portfolio rd minW maxW solver = .ok
        { weights := (List.zip ((eligible rd).map Prod.fst)
              (renormWeights solver.x)).filter (fun p => decide (0 < p.2)),
          expected_return := dotQ (renormWeights solver.x) (optMeans rd),
          expected_risk :=
            Real.sqrt ((optVariance rd (renormWeights solver.x) : ℚ) : ℝ),
          sharpe := if 0 < Real.sqrt
              ((optVariance rd (renormWeights solver.x) : ℚ) : ℝ) then
            ((dotQ (renormWeights solver.x) (optMeans rd) : ℚ) : ℝ)
              / Real.sqrt ((optVariance rd (renormWeights solver.x) : ℚ) : ℝ)
          else 0,
          status := "success",
          iterations := solver.nit } := by
      simp only [optimize_portfolio]
      rw [if_neg h2, if_neg h252, if_neg hnotfail]
    refine ⟨_, hok, rfl, ?_, ?_, rfl, rfl, rfl, rfl, rfl⟩
    · have hlens : ((eligible rd).map Prod.fst).length
          = (renormWeights solver.x).length := by
        rw [List.length_map]
        unfold renormWeights zeroSmall
        rw [List.length_map, List.length_map, hlen]
      rw [snd_filter_zip _ _ hlens,
        sum_filter_pos _ (renormWeights_nonneg solver.x hex),
        renormWeights_sum solver.x hex]
    · intro p hp
      have := (List.mem_filter.mp hp).2
      simpa using this

/-- A 252-day constant return series used to witness C2. -/
def c2Series : List (ℕ × ℚ) := (List.range 252).map (fun d => (d, (1 : ℚ) / 100))

/-- Two funds with identical 252-day histories, the C2 witness universe. -/
def c2Dict : List (String × List (ℕ × ℚ)) := [( "A", c2Series), ( "B", c2Series)]

lemma c2_series_dates : seriesDates c2Series = List.range 252 := by
  unfold seriesDates c2Series
  rw [List.map_map,
    show (Prod.fst ∘ fun d : ℕ => (d, (1 : ℚ) / 100)) = id from rfl,
    List.map_id]

lemma c2_series_length : c2Series.length = 252 := by
  unfold c2Series
  rw [List.length_map, List.length_range]

lemma c2_eligible : eligible c2Dict = c2Dict := by
  unfold eligible c2Dict
  have hp : (decide (252 ≤ c2Series.length)) = true := by
    rw [c2_series_length]
    decide
  simp [List.filter_cons, hp]

lemma c2_sorted : (seriesDates c2Series).Sorted (· < ·) := by
  rw [c2_series_dates]
  exact List.pairwise_lt_range 252

lemma c2_joined : optJoinedDates c2Dict = List.range 252 := by
  unfold optJoinedDates
  rw [c2_eligible]
  have hmap : (c2Dict.map Prod.snd) = [c2Series, c2Series] := by
    unfold c2Dict
    rfl
  rw [hmap, joinedDates_pair c2Series c2Series c2_sorted, c2_series_dates]
  apply List.filter_eq_self.mpr
  intro d hd
  simpa using hd

/-- Witness for C2 on the success path at a concrete solver outcome. -/
theorem C2_optimizer_postprocessing_witness :
    ∃ res, optimize_portfolio c2Dict 0 1 ⟨true, [1 / 2, 1 / 2], 7⟩ = .ok res
      ∧ res.weights = (List.zip ((eligible c2Dict).map Prod.fst)
          (renormWeights [1 / 2, 1 / 2])).filter (fun p => decide (0 < p.2))
      ∧ (res.weights.map Prod.snd).sum = 1
      ∧ (∀ p ∈ res.weights, 0 < p.2)
      ∧ res.expected_return = dotQ (renormWeights [1 / 2, 1 / 2]) (optMeans c2Dict)
      ∧ res.expected_risk
          = Real.sqrt ((optVariance c2Dict (renormWeights [1 / 2, 1 / 2]) : ℚ) : ℝ)
      ∧ res.sharpe = (if 0 < res.expected_risk then
          (res.expected_return : ℝ) / res.expected_risk else 0)
      ∧ res.status = "success"
      ∧ res.iterations = 7 :=
  (C2_optimizer_postprocessing c2Dict 0 1 ⟨true, [1 / 2, 1 / 2], 7⟩
      (by rw [c2_eligible]; decide)
      (by rw [c2_joined, List.length_range]; decide)).2.2
    rfl ⟨1 / 2, by simp, by norm_num⟩ (by rw [c2_eligible]; rfl)

end PortfolioSystem
